import Mathlib

/-!
Shallow embedding of the form-validation core (`src/validation/validation.ts`,
base variant, and `src/unnamed/part_000`, extended variant).

Modelling conventions:
* TS `ValidationResult {isValid, error?}` becomes a structure with a `Bool`
  and an `Option String`.
* The TS `validationRules` record, indexed by a string type, becomes a
  function `String → Option (List Rule)`; `none` models the `undefined`
  obtained by looking up an unknown key (the `!rules` guard in `validate`).
* `Record<string,string>` form data becomes an association list
  `List (String × String)`; JS property lookup is `List.lookup` (JS objects
  have unique keys, so first-match lookup is faithful).
* JS `String.prototype.trim` is modelled by `jsTrim` (dropping
  `Char.isWhitespace` characters at both ends), and the JS UTF-16 `length`
  by Lean `String.length`; the difference (exotic Unicode whitespace,
  astral-plane code units) is irrelevant to the properties here.
* The JS number conversion `Number(v)` used by the extended `age` rule is
  kept abstract: the extended engine is parametrised by
  `num : String → Option ℚ`, where `none` models `NaN`.  Theorems about the
  `age` rule are proved for every such `num`, hence in particular for the
  real JS conversion; concrete evaluations use `decNum`, which agrees with
  `Number` on the plain decimal-integer and non-numeric inputs exercised.
-/

namespace FormValidation

/-- TS `ValidationResult`: `isValid` plus an optional `error` message. -/
structure ValidationResult where
  isValid : Bool
  error : Option String
deriving DecidableEq, Repr

/-- A single rule from the `validationRules` table: a predicate over the value
and the optional compare value, plus a failure message.  (The TS rule objects
whose `validate` takes only one argument simply ignore the second.) -/
structure Rule where
  validate : String → Option String → Bool
  errorMessage : String

/-- JS `String.prototype.trim`: drop leading and trailing whitespace.
(Defined over the character list so that it reduces inside the kernel;
Lean's built-in `String.trim` does not.) -/
def jsTrim (s : String) : String :=
  ⟨((s.data.dropWhile Char.isWhitespace).reverse.dropWhile Char.isWhitespace).reverse⟩

/-- `isRequired(message)` from the source: value trimmed must be non-empty. -/
def isRequired (message : String := "This field is required") : Rule :=
  { validate := fun value _ => (jsTrim value).length > 0
    errorMessage := message }

/-- `minLength(min, message?)` from the source: `value.length >= min`. -/
def minLength (min : Nat) (message : Option String := none) : Rule :=
  { validate := fun value _ => value.length ≥ min
    errorMessage := message.getD ("Must be at least " ++ toString min ++ " characters") }

/-- A character allowed inside the atoms of the email regex: the class
`[^\s@]` (not whitespace, not `@`). -/
def emailAtomChar (c : Char) : Bool := !c.isWhitespace && c != '@'

/-- `test` of the anchored regex `^[^\s@]+@[^\s@]+\.[^\s@]+$`.
Since `@` is excluded from every class, a match forces exactly one `@`;
the part before it must be a non-empty run of `emailAtomChar`s, and the part
after it a run of `emailAtomChar`s containing a `.` that is neither its first
nor its last character. -/
def emailRegexTest (s : String) : Bool :=
  let cs := s.data
  let a := cs.takeWhile (fun c => c != '@')
  match cs.dropWhile (fun c => c != '@') with
  | [] => false
  | _ :: r =>
    !a.isEmpty && a.all emailAtomChar && r.all emailAtomChar &&
      ((r.drop 1).dropLast.contains '.')

/-- `isEmail(message)` from the source. -/
def isEmail (message : String := "Invalid email address") : Rule :=
  { validate := fun value _ => emailRegexTest value
    errorMessage := message }

/-- The base variant's `validationRules` record, as a lookup by type string;
`none` models the `undefined` result of an unknown key. -/
def validationRules (type : String) : Option (List Rule) :=
  if type = "username" then
    some [isRequired "Username is required",
          minLength 3 (some "Username must be at least 3 characters")]
  else if type = "email" then
    some [isRequired "Email is required",
          isEmail "Please enter a valid email address"]
  else if type = "password" then
    some [isRequired "Password is required",
          minLength 8 (some "Password must be at least 8 characters")]
  else if type = "confirmPassword" then
    some [isRequired "Please confirm your password"]
  else if type = "name" then
    some [isRequired "Name is required",
          minLength 2 (some "Name must be at least 2 characters")]
  else
    none

/-- The `for (const rule of rules)` loop of `validate`: return the message of
the first failing rule, or success when every rule passes. -/
def runRules (rules : List Rule) (value : String) (compareValue : Option String) :
    ValidationResult :=
  match rules with
  | [] => ⟨true, none⟩
  | r :: rest =>
    if r.validate value compareValue then runRules rest value compareValue
    else ⟨false, some r.errorMessage⟩

/-- `validate(type, value, compareValue?)` of the base variant. -/
def validate (type value : String) (compareValue : Option String) : ValidationResult :=
  match validationRules type with
  | none => ⟨false, some ("Unknown validation type: " ++ type)⟩
  | some rules =>
    match compareValue with
    | some cv =>
      if type = "confirmPassword" then
        if (jsTrim value).length = 0 then ⟨false, some "Please confirm your password"⟩
        else if value ≠ cv then ⟨false, some "Passwords do not match"⟩
        else ⟨true, none⟩
      else runRules rules value (some cv)
    | none => runRules rules value none

/-- One conditional insertion of the base `validateForm`: an entry for `k`
when the looked-up value is present, nothing otherwise. -/
def entryFor (k : String) (value? : Option String) (compareValue : Option String) :
    List (String × ValidationResult) :=
  match value? with
  | some v => [(k, validate k v compareValue)]
  | none => []

/-- `validateForm(formData)` of the base variant: it enumerates the four
fields `username`, `email`, `password`, `confirmPassword` in that order,
inserting a result only for present ones; `confirmPassword` gets
`formData.password` as compare value. -/
def validateForm (formData : List (String × String)) :
    List (String × ValidationResult) :=
  entryFor "username" (formData.lookup "username") none ++
  entryFor "email" (formData.lookup "email") none ++
  entryFor "password" (formData.lookup "password") none ++
  entryFor "confirmPassword" (formData.lookup "confirmPassword")
    (formData.lookup "password")

/-- `isFormValid(results)`: every result's `isValid` is true. -/
def isFormValid (validationResults : List (String × ValidationResult)) : Bool :=
  validationResults.all (fun kv => kv.2.isValid)

/-- `getValidationType(fieldName)` of the base variant: the switch over the
four known field names, defaulting to `"name"`. -/
def getValidationType (fieldName : String) : String :=
  if fieldName = "username" then "username"
  else if fieldName = "email" then "email"
  else if fieldName = "password" then "password"
  else if fieldName = "confirmPassword" then "confirmPassword"
  else "name"

/-- The extended variant's `phone` rule: `test` of `^\d{10}$` — exactly ten
decimal digits. -/
def phoneRule : Rule :=
  { validate := fun v _ => v.data.length == 10 && v.data.all (fun c => c.isDigit)
    errorMessage := "Phone number must be 10 digits" }

/-- The extended variant's `age` rule,
`!isNaN(Number(v)) && Number(v) > 0 && Number(v) < 120`, over an abstract
number conversion `num` (`none` models `NaN`). -/
def ageRule (num : String → Option ℚ) : Rule :=
  { validate := fun v _ =>
      match num v with
      | none => false
      | some q => decide (0 < q ∧ q < 120)
    errorMessage := "Please enter a valid age" }

/-- The extended variant's `validationRules` record (`src/unnamed/part_000`),
parametrised by the number conversion used in the `age` rule. -/
def validationRulesExt (num : String → Option ℚ) (type : String) :
    Option (List Rule) :=
  if type = "username" then
    some [isRequired "Username is required",
          minLength 3 (some "Username must be at least 3 characters")]
  else if type = "email" then
    some [isRequired "Email is required",
          isEmail "Please enter a valid email address"]
  else if type = "password" then
    some [isRequired "Password is required",
          minLength 8 (some "Password must be at least 8 characters")]
  else if type = "confirmPassword" then
    some [isRequired "Please confirm your password"]
  else if type = "name" then
    some [isRequired "Name is required",
          minLength 2 (some "Name must be at least 2 characters")]
  else if type = "phone" then
    some [isRequired "Phone number is required", phoneRule]
  else if type = "address" then
    some [isRequired "Address is required",
          minLength 5 (some "Address must be at least 5 characters")]
  else if type = "age" then
    some [isRequired "Age is required", ageRule num]
  else
    none

/-- `validate` of the extended variant (same control flow as the base one,
over the extended rule table). -/
def validateExt (num : String → Option ℚ) (type value : String)
    (compareValue : Option String) : ValidationResult :=
  match validationRulesExt num type with
  | none => ⟨false, some ("Unknown validation type: " ++ type)⟩
  | some rules =>
    match compareValue with
    | some cv =>
      if type = "confirmPassword" then
        if (jsTrim value).length = 0 then ⟨false, some "Please confirm your password"⟩
        else if value ≠ cv then ⟨false, some "Passwords do not match"⟩
        else ⟨true, none⟩
      else runRules rules value (some cv)
    | none => runRules rules value none

/-- `getValidationType` of the extended variant: seven known field names,
default `"name"`. -/
def getValidationTypeExt (fieldName : String) : String :=
  if fieldName = "username" then "username"
  else if fieldName = "email" then "email"
  else if fieldName = "password" then "password"
  else if fieldName = "confirmPassword" then "confirmPassword"
  else if fieldName = "phone" then "phone"
  else if fieldName = "address" then "address"
  else if fieldName = "age" then "age"
  else "name"

/-- `validateForm` of the extended variant: one entry per key of `formData`
(`Object.keys` order = list order), the type coming from
`getValidationTypeExt`, and `formData.password` as compare value exactly for
the `confirmPassword` type. -/
def validateFormExt (num : String → Option ℚ)
    (formData : List (String × String)) : List (String × ValidationResult) :=
  formData.map (fun kv =>
    let type := getValidationTypeExt kv.1
    let compareValue :=
      if type = "confirmPassword" then formData.lookup "password" else none
    (kv.1, validateExt num type kv.2 compareValue))

/-- Models the JS `Number` conversion restricted to non-negative decimal
integer literals: digit-only strings map to their value, every other string
to `NaN` (`none`).  It agrees with `Number` on each concrete input it is
applied to below ("150", "30", "abc"). -/
def decNum (s : String) : Option ℚ :=
  if !s.data.isEmpty && s.data.all Char.isDigit then
    some (Nat.cast (s.data.foldl (fun acc c => 10 * acc + (c.toNat - 48)) 0))
  else
    none

/-- A result is well-formed when `error` is present (and a non-empty string)
exactly on failure. -/
def wellFormed (r : ValidationResult) : Prop :=
  (r.isValid = true ∧ r.error = none) ∨
  (r.isValid = false ∧ ∃ m, r.error = some m ∧ m ≠ "")

theorem string_length_eq_zero_iff (s : String) : s.length = 0 ↔ s = "" := by
  cases s with
  | mk data =>
    constructor
    · intro h
      rw [List.length_eq_zero.mp h]
    · intro h
      rw [h]
      rfl

/-- Outside the confirmPassword-with-compareValue special case, `validate` on
a known type is the plain rule loop. -/
theorem validate_generic (t v : String) (cv : Option String) (rules : List Rule)
    (hr : validationRules t = some rules)
    (hnc : t = "confirmPassword" → cv = none) :
    validate t v cv = runRules rules v cv := by
  unfold validate
  rw [hr]
  cases cv with
  | none => rfl
  | some c =>
    have ht : ¬ t = "confirmPassword" := fun h => by simpa using hnc h
    simp [ht]

theorem validateExt_generic (num : String → Option ℚ) (t v : String)
    (cv : Option String) (rules : List Rule)
    (hr : validationRulesExt num t = some rules)
    (hnc : t = "confirmPassword" → cv = none) :
    validateExt num t v cv = runRules rules v cv := by
  unfold validateExt
  rw [hr]
  cases cv with
  | none => rfl
  | some c =>
    have ht : ¬ t = "confirmPassword" := fun h => by simpa using hnc h
    simp [ht]

theorem runRules_all_pass (rules : List Rule) (v : String) (cv : Option String)
    (h : ∀ r ∈ rules, r.validate v cv = true) :
    runRules rules v cv = ⟨true, none⟩ := by
  induction rules with
  | nil => rfl
  | cons r rest ih =>
    have hr : r.validate v cv = true := h r (List.mem_cons_self r rest)
    simp only [runRules, hr, if_true]
    exact ih (fun r' hr' => h r' (List.mem_cons_of_mem r hr'))

theorem runRules_first_fail (rules : List Rule) (v : String) (cv : Option String)
    (i : Nat) (hi : i < rules.length)
    (hfail : (rules.get ⟨i, hi⟩).validate v cv = false)
    (hbefore : ∀ j (hj : j < rules.length), j < i →
      (rules.get ⟨j, hj⟩).validate v cv = true) :
    runRules rules v cv = ⟨false, some ((rules.get ⟨i, hi⟩).errorMessage)⟩ := by
  induction rules generalizing i with
  | nil => simp at hi
  | cons r rest ih =>
    cases i with
    | zero =>
      simp only [List.get] at hfail ⊢
      simp [runRules, hfail]
    | succ n =>
      have h0 : r.validate v cv = true :=
        hbefore 0 (Nat.succ_pos _) (Nat.succ_pos n)
      simp only [runRules, h0, if_true]
      exact ih n (Nat.lt_of_succ_lt_succ hi) hfail
        (fun j hj hjn => hbefore (j + 1) (Nat.succ_lt_succ hj) (Nat.succ_lt_succ hjn))

theorem string_length_pos_iff (s : String) : 0 < s.length ↔ s ≠ "" := by
  rw [Nat.pos_iff_ne_zero, not_iff_not]
  exact string_length_eq_zero_iff s

/-- The confirmPassword special path of the base `validate`, written out. -/
theorem validate_confirm_some (v c : String) :
    validate "confirmPassword" v (some c) =
      (if (jsTrim v).length = 0 then ⟨false, some "Please confirm your password"⟩
       else if v ≠ c then ⟨false, some "Passwords do not match"⟩
       else ⟨true, none⟩) := rfl

/-- The confirmPassword special path of the extended `validate`. -/
theorem validateExt_confirm_some (num : String → Option ℚ) (v c : String) :
    validateExt num "confirmPassword" v (some c) =
      (if (jsTrim v).length = 0 then ⟨false, some "Please confirm your password"⟩
       else if v ≠ c then ⟨false, some "Passwords do not match"⟩
       else ⟨true, none⟩) := rfl

theorem messages_ne_of_all (rules : List Rule)
    (h : rules.all (fun r => r.errorMessage != "") = true) :
    ∀ r ∈ rules, r.errorMessage ≠ "" := by
  intro r hr
  simpa using List.all_eq_true.mp h r hr

/-- Every rule in the base table carries a non-empty message. -/
theorem validationRules_messages (t : String) (rules : List Rule)
    (h : validationRules t = some rules) : ∀ r ∈ rules, r.errorMessage ≠ "" := by
  unfold validationRules at h
  split_ifs at h <;>
    first
      | exact Option.noConfusion h
      | (injection h with h'; subst h'; exact messages_ne_of_all _ (by decide))

theorem unknown_msg_ne_empty (t : String) :
    ("Unknown validation type: " ++ t) ≠ "" := by
  intro h
  have hl : ("Unknown validation type: " ++ t).length = 0 := by rw [h]; rfl
  rw [String.length_append,
    show ("Unknown validation type: ").length = 25 from rfl] at hl
  omega

theorem runRules_wellFormed (rules : List Rule) (v : String) (cv : Option String)
    (h : ∀ r ∈ rules, r.errorMessage ≠ "") :
    wellFormed (runRules rules v cv) := by
  induction rules with
  | nil => exact Or.inl ⟨rfl, rfl⟩
  | cons r rest ih =>
    by_cases hv : r.validate v cv = true
    · rw [show runRules (r :: rest) v cv = runRules rest v cv from by
        simp [runRules, hv]]
      exact ih (fun r' h' => h r' (List.mem_cons_of_mem r h'))
    · rw [show runRules (r :: rest) v cv = ⟨false, some r.errorMessage⟩ from by
        simp [runRules, hv]]
      exact Or.inr ⟨rfl, r.errorMessage, rfl, h r (List.mem_cons_self r rest)⟩

/-- Every result of the base `validate` is well-formed. -/
theorem validate_wellFormed (t v : String) (cv : Option String) :
    wellFormed (validate t v cv) := by
  cases hr : validationRules t with
  | none =>
    rw [show validate t v cv = ⟨false, some ("Unknown validation type: " ++ t)⟩ from by
      unfold validate; rw [hr]]
    exact Or.inr ⟨rfl, _, rfl, unknown_msg_ne_empty t⟩
  | some rules =>
    by_cases ht : t = "confirmPassword"
    · subst ht
      cases cv with
      | none =>
        rw [validate_generic _ v none rules hr (fun _ => rfl)]
        exact runRules_wellFormed rules v none (validationRules_messages _ rules hr)
      | some c =>
        rw [validate_confirm_some v c]
        by_cases h0 : (jsTrim v).length = 0
        · rw [if_pos h0]
          exact Or.inr ⟨rfl, _, rfl, by decide⟩
        · rw [if_neg h0]
          by_cases hne : v ≠ c
          · rw [if_pos hne]
            exact Or.inr ⟨rfl, _, rfl, by decide⟩
          · rw [if_neg hne]
            exact Or.inl ⟨rfl, rfl⟩
    · rw [validate_generic t v cv rules hr (fun h => absurd h ht)]
      exact runRules_wellFormed rules v cv (validationRules_messages t rules hr)

theorem mem_entryFor (p : String × ValidationResult) (k : String)
    (v? : Option String) (cv : Option String) (hp : p ∈ entryFor k v? cv) :
    ∃ v, p = (k, validate k v cv) := by
  cases v? with
  | none => simp [entryFor] at hp
  | some v =>
    simp [entryFor] at hp
    exact ⟨v, hp⟩

/-- Every entry of the base `validateForm` is well-formed. -/
theorem validateForm_wellFormed (formData : List (String × String))
    (p : String × ValidationResult) (hp : p ∈ validateForm formData) :
    wellFormed p.2 := by
  unfold validateForm at hp
  simp only [List.mem_append] at hp
  rcases hp with ((hp | hp) | hp) | hp <;>
    · obtain ⟨v, rfl⟩ := mem_entryFor p _ _ _ hp
      exact validate_wellFormed _ v _

/-- Claim C1 counterexample: in the base variant, the field name `name` is present
in the form data, yet `validateForm` produces no entry at all for it, so the
claim "one ValidationResult per field name present in formData" fails on the
base `validateForm`. -/
theorem claim_C1_counterexample :
    "name" ∈ (([("name", "John")] : List (String × String)).map Prod.fst) ∧
    validateForm [("name", "John")] = [] := by
  exact ⟨by decide, by decide⟩

/-- Claim C1 (amended): the extended variant's `validateForm` produces exactly one
entry per field present in the form data and none for absent fields (its
result has the same keys in the same order); the base variant produces one
entry per present field among `username`, `email`, `password`,
`confirmPassword` (in that fixed order) and no entry for any other field
name, present or absent. -/
theorem claim_C1 :
    (∀ (num : String → Option ℚ) (formData : List (String × String)),
      (validateFormExt num formData).map Prod.fst = formData.map Prod.fst) ∧
    (∀ formData : List (String × String),
      (validateForm formData).map Prod.fst =
        (["username", "email", "password", "confirmPassword"].filter
          (fun k => (formData.lookup k).isSome))) := by
  constructor
  · intro num formData
    unfold validateFormExt
    rw [List.map_map]
    rfl
  · intro formData
    unfold validateForm
    cases h1 : formData.lookup "username" <;>
    cases h2 : formData.lookup "email" <;>
    cases h3 : formData.lookup "password" <;>
    cases h4 : formData.lookup "confirmPassword" <;>
      simp [entryFor, h1, h2, h3, h4, List.filter]

/-- Claim C2: with a supplied compareValue, confirmPassword validation fails with
"Please confirm your password" when the value trims to empty, fails with
"Passwords do not match" when the value differs from the compareValue, and
succeeds otherwise — in both variants. -/
theorem claim_C2 (value cv : String) :
    validate "confirmPassword" value (some cv) =
      (if jsTrim value = "" then ⟨false, some "Please confirm your password"⟩
       else if value ≠ cv then ⟨false, some "Passwords do not match"⟩
       else ⟨true, none⟩) ∧
    (∀ num, validateExt num "confirmPassword" value (some cv) =
      (if jsTrim value = "" then ⟨false, some "Please confirm your password"⟩
       else if value ≠ cv then ⟨false, some "Passwords do not match"⟩
       else ⟨true, none⟩)) := by
  constructor
  · rw [validate_confirm_some]
    simp only [string_length_eq_zero_iff]
  · intro num
    rw [validateExt_confirm_some]
    simp only [string_length_eq_zero_iff]

/-- Claim C3: without a compareValue, confirmPassword takes the generic rule path,
which only checks non-emptiness after trimming; no password-match check is
performed (the result never depends on any other value). -/
theorem claim_C3 (value : String) :
    validate "confirmPassword" value none =
      (if jsTrim value = "" then ⟨false, some "Please confirm your password"⟩
       else ⟨true, none⟩) := by
  rw [validate_generic "confirmPassword" value none
    [isRequired "Please confirm your password"] rfl (fun _ => rfl)]
  simp only [runRules, isRequired, decide_eq_true_eq]
  by_cases h : jsTrim value = ""
  · have h0 : ¬ 0 < (jsTrim value).length := by
      rw [string_length_pos_iff]
      simpa using h
    rw [if_neg h0, if_pos h]
  · have h0 : 0 < (jsTrim value).length := (string_length_pos_iff _).mpr h
    rw [if_pos h0, if_neg h]

/-- Claim C4: outside the confirmPassword-with-compareValue special case, `validate`
on a known type runs that type's rule list in declared order: if every
predicate passes it succeeds, and if some predicate fails it returns the
message of the first failing rule. -/
theorem claim_C4 (t v : String) (cv : Option String) (rules : List Rule)
    (hr : validationRules t = some rules)
    (hnc : t = "confirmPassword" → cv = none) :
    ((∀ r ∈ rules, r.validate v cv = true) → validate t v cv = ⟨true, none⟩) ∧
    (∀ i (hi : i < rules.length),
      (rules.get ⟨i, hi⟩).validate v cv = false →
      (∀ j (hj : j < rules.length), j < i →
        (rules.get ⟨j, hj⟩).validate v cv = true) →
      validate t v cv = ⟨false, some ((rules.get ⟨i, hi⟩).errorMessage)⟩) := by
  constructor
  · intro hall
    rw [validate_generic t v cv rules hr hnc]
    exact runRules_all_pass rules v cv hall
  · intro i hi hfail hbefore
    rw [validate_generic t v cv rules hr hnc]
    exact runRules_first_fail rules v cv i hi hfail hbefore

/-- Claim C4 witness: `username` on the two-character value `"ab"` passes the
required rule and fails the min-length rule, so `validate` reports the
min-length message. -/
theorem claim_C4_witness :
    validate "username" "ab" none =
      ⟨false, some "Username must be at least 3 characters"⟩ := by
  have h := (claim_C4 "username" "ab" none
      [isRequired "Username is required",
       minLength 3 (some "Username must be at least 3 characters")]
      rfl (fun _ => rfl)).2 1 (by decide) (by decide) (by decide)
  exact h

/-- Claim C5: `isFormValid` is true exactly when every result in the mapping has
`isValid = true`, and in particular it is true of the empty mapping. -/
theorem claim_C5 :
    (∀ results : List (String × ValidationResult),
      isFormValid results = true ↔ ∀ p ∈ results, p.2.isValid = true) ∧
    isFormValid [] = true := by
  refine ⟨fun results => ?_, rfl⟩
  simp [isFormValid, List.all_eq_true]

/-- Claim C6: for every known type, validating the empty string fails with that
type's configured "required" message — all five base types, and all eight
extended types for every number conversion. -/
theorem claim_C6 :
    (validate "username" "" none = ⟨false, some "Username is required"⟩ ∧
     validate "email" "" none = ⟨false, some "Email is required"⟩ ∧
     validate "password" "" none = ⟨false, some "Password is required"⟩ ∧
     validate "confirmPassword" "" none =
       ⟨false, some "Please confirm your password"⟩ ∧
     validate "name" "" none = ⟨false, some "Name is required"⟩) ∧
    (∀ num : String → Option ℚ,
     validateExt num "username" "" none = ⟨false, some "Username is required"⟩ ∧
     validateExt num "email" "" none = ⟨false, some "Email is required"⟩ ∧
     validateExt num "password" "" none = ⟨false, some "Password is required"⟩ ∧
     validateExt num "confirmPassword" "" none =
       ⟨false, some "Please confirm your password"⟩ ∧
     validateExt num "name" "" none = ⟨false, some "Name is required"⟩ ∧
     validateExt num "phone" "" none =
       ⟨false, some "Phone number is required"⟩ ∧
     validateExt num "address" "" none = ⟨false, some "Address is required"⟩ ∧
     validateExt num "age" "" none = ⟨false, some "Age is required"⟩) := by
  refine ⟨by decide, fun num => ?_⟩
  exact ⟨rfl, rfl, rfl, rfl, rfl, rfl, rfl, rfl⟩

/-- Claim C7: on any type string outside the rule table, `validate` returns the
descriptive unknown-type failure (both variants); as a total function it has
no exceptional exit. -/
theorem claim_C7 :
    (∀ t v cv, validationRules t = none →
      validate t v cv = ⟨false, some ("Unknown validation type: " ++ t)⟩) ∧
    (∀ num t v cv, validationRulesExt num t = none →
      validateExt num t v cv =
        ⟨false, some ("Unknown validation type: " ++ t)⟩) := by
  constructor
  · intro t v cv h
    unfold validate
    rw [h]
  · intro num t v cv h
    unfold validateExt
    rw [h]

/-- Claim C7 witness: the type string `"zzz"` is in neither rule table. -/
theorem claim_C7_witness :
    validate "zzz" "x" none = ⟨false, some ("Unknown validation type: " ++ "zzz")⟩ ∧
    validateExt decNum "zzz" "x" none =
      ⟨false, some ("Unknown validation type: " ++ "zzz")⟩ :=
  ⟨claim_C7.1 "zzz" "x" none rfl, claim_C7.2 decNum "zzz" "x" none rfl⟩

/-- Claim C8: the extended `age` validation succeeds exactly when the value trims
to non-empty, the number conversion does not yield NaN, and the parsed number
lies strictly between 0 and 120 — proved for every number conversion `num`
(so in particular for the JS `Number`); the spec's concrete examples follow
with the decimal-integer conversion `decNum`. -/
theorem claim_C8 :
    (∀ (num : String → Option ℚ) (v : String),
      (validateExt num "age" v none).isValid = true ↔
        (jsTrim v ≠ "" ∧ ∃ q, num v = some q ∧ 0 < q ∧ q < 120)) ∧
    (validateExt decNum "age" "150" none).isValid = false ∧
    (validateExt decNum "age" "30" none).isValid = true ∧
    (validateExt decNum "age" "abc" none).isValid = false := by
  refine ⟨fun num v => ?_, by decide, by decide, by decide⟩
  rw [validateExt_generic num "age" v none
    [isRequired "Age is required", ageRule num] rfl (fun _ => rfl)]
  simp only [runRules, isRequired, ageRule, decide_eq_true_eq]
  by_cases h1 : 0 < (jsTrim v).length
  · have hne : jsTrim v ≠ "" := (string_length_pos_iff _).mp h1
    rw [if_pos h1]
    cases hq : num v with
    | none => simp [runRules, hq]
    | some q =>
      simp only [runRules, hq, hne, ne_eq, not_false_iff, true_and]
      by_cases h2 : 0 < q ∧ q < 120 <;> simp [h2]
  · have he : jsTrim v = "" := by
      rcases Nat.eq_zero_or_pos (jsTrim v).length with h | h
      · exact (string_length_eq_zero_iff _).mp h
      · exact absurd h h1
    rw [if_neg h1]
    simp [he]

/-- Claim C9: `getValidationType` is total: each known field name maps to itself
(four names in the base variant, seven in the extended one) and every other
string maps to `"name"`. -/
theorem claim_C9 (f : String) :
    getValidationType f =
      (if f ∈ ["username", "email", "password", "confirmPassword"]
       then f else "name") ∧
    getValidationTypeExt f =
      (if f ∈ ["username", "email", "password", "confirmPassword",
               "phone", "address", "age"]
       then f else "name") := by
  constructor
  · unfold getValidationType
    split_ifs <;> simp_all
  · unfold getValidationTypeExt
    split_ifs <;> simp_all

/-- Claim C10: every result returned by the base `validate` — and hence every entry
of the mapping returned by `validateForm` — carries a non-empty error string
exactly when `isValid` is false, and no error on success. -/
theorem claim_C10 :
    (∀ t v cv, wellFormed (validate t v cv)) ∧
    (∀ formData, ∀ p ∈ validateForm formData, wellFormed p.2) :=
  ⟨validate_wellFormed, validateForm_wellFormed⟩

/-- Claim C10 witness: a failing entry of a concrete form. -/
theorem claim_C10_witness :
    wellFormed (("username", validate "username" "ab" none) :
      String × ValidationResult).2 :=
  claim_C10.2 [("username", "ab")]
    ("username", validate "username" "ab" none) (by decide)

end FormValidation
